import Mathlib

/-!
Shallow embedding of the synchronization core of `sleekcms/cms-cli`
(`src/index.js`), for checking the natural-language specification
against the program.

The program is a single-threaded, event-driven Node.js process.  Its
mutable globals (`fileMap`, `pendingUpdates`, `isShuttingDown`, the
filesystem under `VIEWS_DIR`, and the chokidar watcher) are modelled as
an explicit state record `St`.  Remote responses (axios) are supplied by
an oracle `Orc`; every outgoing API call is appended to a call log so
that theorems can count pushes.  Each `async` handler of the source runs
to completion between suspension points; handlers are modelled as
functions `St → St` executed atomically, which matches the source's
single-threaded event loop for the properties stated here.

JavaScript string operations used by the source (`split('-')`, `trim`,
`toLowerCase`, `replace(/\\/g, "/")`, `path.relative`, `path.join`) are
modelled character-wise on `String.data` so that every definition
reduces in the kernel.
-/

namespace CmsCli

/-- A remote record (template): `{id, file_path, code, updated_at}` as
returned by the API (`GET /`, `GET /{id}`, `PATCH /{id}`). -/
structure Record where
  id : Nat
  file_path : String
  code : String
  updated_at : Nat
deriving DecidableEq, Repr

/-- Response of `POST /cli` (provisioning): the field actually read by
`createSchema` is `tmpl_main_id`. -/
structure SchemaResp where
  tmpl_main_id : Nat
deriving DecidableEq, Repr

/-- Outgoing API calls, logged in order of issue. -/
inductive ApiCall where
  | list : ApiCall
  | get (id : Nat) : ApiCall
  | patch (id : Nat) (code : String) (updated_at : Nat) : ApiCall
  | post_cli (file_path : String) : ApiCall
deriving DecidableEq, Repr

/-- Watcher operations issued by `createSchema` during a rename
(`watcher.unwatch(newPath)` / `watcher.add(newPath)`). -/
inductive WatchOp where
  | unwatch (p : String) : WatchOp
  | add (p : String) : WatchOp
deriving DecidableEq, Repr

/-- A live debounce timeout created by `setTimeout` in `scheduleUpdate`
(src/index.js:170).  It is keyed by the record id (`pendingUpdates[file.id]`)
and its callback closes over the `file` record and the absolute
`filePath` as they were at scheduling time. -/
structure Timer where
  recId : Nat
  fireTime : Nat
  filePath : String
  file : Record
deriving DecidableEq, Repr

/-- The mutable state of the process: the globals of src/index.js plus
the local filesystem (path → file content), the watcher's explicit
unwatch set, and observation logs (API calls, watcher ops, warnings). -/
structure St where
  viewsDir : String
  fileMap : List (String × Record)
  pendingUpdates : List Timer
  fs : List (String × String)
  unwatched : List String
  watchLog : List WatchOp
  isShuttingDown : Bool
  warnings : Nat
  calls : List ApiCall
deriving DecidableEq, Repr

/-- Remote-response oracle: what the backend answers to each request.
`push` answers `PATCH /{id}` (`.error` = HTTP failure), `get` answers
`GET /{id}` (`none` = failure), `post` answers `POST /cli`. -/
structure Orc where
  push : Nat → String → Nat → Except Unit Record
  get : Nat → Option Record
  post : String → Option SchemaResp
  listing : Option (List Record)

/-- `DEBOUNCE_DELAY` (src/index.js:20). -/
def DEBOUNCE_DELAY : Nat := 1000

/-! ### Association-list primitives (JS object semantics) -/

/-- Lookup in an association list (JS `obj[k]`, `undefined` ↦ `none`). -/
def lookupA {α : Type} : List (String × α) → String → Option α
  | [], _ => none
  | e :: rest, k => if e.1 = k then some e.2 else lookupA rest k

/-- JS `obj[k] = v`: replace the (first, and in every state built here
only) binding if the key is present, otherwise append a new binding
(insertion order preserved). -/
def upd {α : Type} : List (String × α) → String → α → List (String × α)
  | [], k, v => [(k, v)]
  | e :: rest, k, v => if e.1 = k then (k, v) :: rest else e :: upd rest k v

/-- JS `delete obj[k]` / `fs.unlink`: drop every binding of the key. -/
def removeA {α : Type} (l : List (String × α)) (k : String) : List (String × α) :=
  l.filter (fun e => ¬ e.1 = k)

/-! ### Path and string helpers (character-wise models of the JS ops) -/

/-- `.replace(/\\/g, "/")`: replace every backslash by a forward slash. -/
def normSlash (s : String) : String :=
  ⟨s.data.map (fun c => if c = '\\' then '/' else c)⟩

/-- `path.join(VIEWS_DIR, rel)` on a POSIX system, for a relative second
argument: concatenation with a single separator. -/
def joinPath (root rel : String) : String :=
  root ++ "/" ++ rel

/-- `path.relative(VIEWS_DIR, filePath).replace(/\\/g, "/")` for a path
lying under the workspace root (the only shape the watcher delivers):
drop the root and the separator, then normalize slashes. -/
def relativeTo (root p : String) : String :=
  normSlash ⟨p.data.drop (root.data.length + 1)⟩

/-- Is `p` the workspace root or a descendant of it?  (`fs.remove(VIEWS_DIR)`
deletes exactly these paths.) -/
def underDir (root p : String) : Bool :=
  p == root || (root.data ++ ['/']).isPrefixOf p.data

/-- Is `p` currently delivered by the watcher?  chokidar watches the
whole tree under the root (src/index.js:221); `watcher.unwatch` adds a
path to an exclusion set and `watcher.add` removes it again. -/
def watchedPath (s : St) (p : String) : Bool :=
  underDir s.viewsDir p && !(s.unwatched.contains p)

/-- The static reference document `AGENT.md` (`src/agent.js`, exported as `agentMdContent` and written by `fetchFiles` at the workspace root). -/
def agentMdContent : String := "# EJS Template Editing Guide\n\n## Workspace Information\n\nThis is a **synced SleekCMS workspace**. Files are automatically synced with the SleekCMS server.\n\n### Important Notes:\n- **Standard VS Code tools work** - use `file_search`, `grep_search`, `read_file`, etc.\n- **File edits are auto-synced** - changes are automatically saved to the server\n- **DO NOT create new files** - new templates must be created via the SleekCMS dashboard\n- **Deleting files** will also delete them from the server\n\n---\n\nTemplates use [EJS](https://ejs.co/) syntax. The template receives a context object with site content and helper functions.\n\n## Directory structure\n- css/tailwind.css - tailwind config v4\n- css/*.css - other styles css\n- js/*.js - script files\n- views/blocks/*.ejs - ejs templates for each block. Blocks are groups of fields, used as a field type in entries or pages\n- views/entries/*.ejs - ejs template corresponding to each entry. Entries are regular records and can be referenced by other models\n- views/pages/*.ejs - ejs template corresponding to each page or page collections (path/[slug])\n- All _index.ejs are for collection of pages and created for each [slug]\n\n**Note:** Do not create any new files. You can suggest creating new models or ask for model schema but don't add any new files.\n\n## Available Data\n\n- `item` — The current page, entry, or block being rendered. Fields depend on the schema (e.g. `item.title`, `item.body`, `item.image`).\n- `pages` — Array of all pages. Each page has `_path`, `_slug`, and its own fields.\n- `entries` — Object of entries keyed by handle (e.g. `entries.header`, `entries.footer`).\n- `images` — Object of images keyed by name. Each has `\x7b url, raw, alt \x7d`.\n- `options` — Object of option sets keyed by name. Each is an array of `\x7b label, value \x7d`.\n- `main` — The rendered HTML from the previous template in the chain (used in base/layout templates).\n\nNote: Although all data can be accessed directly, best to use Helper function instead of accessing it directly.\n\n## Helper Functions\n\n### Content Querying\n\n| Function | Description |\n|---|---|\n| `render(blocks:any)` | Render a block or section (array of blocks) to HTML |\n| `getEntry(handle:string)` | Get an entry by handle |\n| `getPage(path:string)` | Get a page with the exact path |\n| `getPages(path:string, \x7bcollection?: boolean\x7d)` | Get all pages where path begins with the string. |\n| `getSlugs(path:string)` | Get slugs of pages under a path |\n| `getImage(name:string)` | Get an image object by name |\n| `getOptions(name:string)` | Get an option set by name |\n| `getContent(query?)` | Get all content, or filter with a [JMESPath](https://jmespath.org/) query |\n| `path(page)` | Get the URL path of a page |\n\n### Images\n\n| Function | Description |\n|---|---|\n| `src(image:\x7burl: string\x7d, \"WxH\")` | Get a resized image URL. e.g. `src(item.image, \"800x600\")` |\n| `img(image:\x7burl: string\x7d, \"WxH\")` | Get a full `<img>` tag |\n| `picture(image:\x7burl: string\x7d, \"WxH\")` | Get a `<picture>` tag (supports dark/light variants) |\n| `svg(image:\x7burl: string\x7d)` | Render an SVG reference |\n\nSize can be a string `\"WxH\"` or an object `\x7b w, h, fit, class, style \x7d`.\n\n### Head Injection\n\nCall these to add elements to `<head>`. Deduplicated automatically.\n\n| Function | Description |\n|---|---|\n| `meta(attrs)` | Add a `<meta>` tag. e.g. `meta(\x7b name: \"description\", content: \"...\" \x7d)` |\n| `link(attrs)` | Add a `<link>` tag |\n| `style(css)` | Add a `<style>` block |\n| `script(js)` | Add a `<script>` block |\n| `title(text)` | Set the page `<title>` |\n| `seo()` | Auto-generate SEO meta tags from `item.seo` or `item.title`/`item.description`/`item.image` |\n\n## Template Types\n\n- **main** — Renders the content for the current item.\n- **base** — Layout wrapper. Use `<%- main %>` to output the rendered main content.\n\n## Examples\n\n### Simple page template (main)\n```ejs\n<h1><%= item.title %></h1>\n<div><%- item.body %></div>\n```\n\n### Render blocks\n```ejs\n<%- render(item.blocks) %>\n```\n\n### List pages\n```ejs\n<% for (let page of findPages('/blog')) \x7b %>\n  <a href=\"<%= path(page) %>\"><%= page.title %></a>\n<% \x7d %>\n```\n\n### Image\n```ejs\n<%- img(item.image, \"600x400\") %>\n```\n\n### Base layout\n```ejs\n<!DOCTYPE html>\n<html>\n<head>\n  <title><%= item.title %></title>\n</head>\n<body>\n  <%- render(entries.header) %>\n  <%- main %>\n  <%- render(entries.footer) %>\n</body>\n</html>\n```\n\n### SEO\n```ejs\n<% seo() %>\n```\n\n## EJS Syntax Quick Reference\n\n- `<%= expr %>` — Output escaped HTML\n- `<%- expr %>` — Output raw/unescaped HTML (use for rendered blocks, images, HTML fields)\n- `<% code %>` — Execute JS (loops, conditionals)\n"

/-! ### Handlers (src/index.js) -/

/-- `refreshFile(filePath)` (src/index.js:101-112): look up the record
currently stored in `fileMap` for the path, `GET /{id}`, replace the
`fileMap` entry with the response and overwrite the file on disk with
the fetched `code`.  A missing `fileMap` entry makes the JS throw a
`TypeError` on `.id` before any request; the surrounding `catch` logs it
and leaves the state unchanged.  A failed `GET` is likewise caught after
the request was issued. -/
def refreshFile (orc : Orc) (s : St) (filePath : String) : St :=
  let relativePath := relativeTo s.viewsDir filePath
  match lookupA s.fileMap relativePath with
  | none => s
  | some cur =>
      let s1 := { s with calls := s.calls ++ [ApiCall.get cur.id] }
      match orc.get cur.id with
      | none => s1
      | some template =>
          { s1 with
            fileMap := upd s1.fileMap relativePath template,
            fs := upd s1.fs filePath template.code }

/-- One iteration of the `fetchFiles` loop (src/index.js:122-129): if the
listed record declares a `file_path`, write its `code` to disk under the
workspace root and bind the slash-normalized path in `fileMap`. -/
def fetchStep (acc : St) (file : Record) : St :=
  if file.file_path ≠ "" then
    { acc with
      fs := upd acc.fs (joinPath acc.viewsDir file.file_path) file.code,
      fileMap := upd acc.fileMap (normSlash file.file_path) file }
  else acc

/-- The `for (const file of response.data)` loop of `fetchFiles`. -/
def fetchLoop (s : St) (files : List Record) : St :=
  files.foldl fetchStep s

/-- `fetchFiles()` (src/index.js:115-138): `GET /`, materialize every
listed record, then write the static `AGENT.md` document at the
workspace root.  A failed listing is caught and leaves the state as it
was (empty snapshot). -/
def fetchFiles (orc : Orc) (s : St) : St :=
  let s0 := { s with calls := s.calls ++ [ApiCall.list] }
  match orc.listing with
  | none => s0
  | some files =>
      let s1 := fetchLoop s0 files
      { s1 with fs := upd s1.fs (joinPath s1.viewsDir "AGENT.md") agentMdContent }

/-- `cleanupFiles()` (src/index.js:141-149): `fs.remove(VIEWS_DIR)` —
delete the workspace directory and every descendant. -/
def cleanupFiles (s : St) : St :=
  { s with fs := s.fs.filter (fun e => ¬ underDir s.viewsDir e.1) }

/-- `scheduleUpdate(filePath)` (src/index.js:153-191), the synchronous
part run when a *modified* event arrives at time `now`: bail out during
shutdown; warn and do nothing when `fileMap` has no record with a truthy
`id` for the path (`!file?.id`; the JS number `0` is falsy); otherwise
clear any pending timeout for the record id and arm a fresh one
`DEBOUNCE_DELAY` from now, whose callback closes over `file` and
`filePath`. -/
def scheduleUpdate (s : St) (filePath : String) (now : Nat) : St :=
  if s.isShuttingDown then s
  else
    let relativePath := relativeTo s.viewsDir filePath
    match lookupA s.fileMap relativePath with
    | none => { s with warnings := s.warnings + 1 }
    | some file =>
        if file.id = 0 then { s with warnings := s.warnings + 1 }
        else
          { s with
            pendingUpdates :=
              s.pendingUpdates.filter (fun t => ¬ t.recId = file.id)
                ++ [⟨file.id, now + DEBOUNCE_DELAY, filePath, file⟩] }

/-- The body of the timeout armed by `scheduleUpdate`
(src/index.js:170-190), run when the timer fires.  The event loop has
already retired the timeout (it fires once); the callback itself never
touches the timer set, so `pendingUpdates` is managed by the caller
(`fireDue`).  Read the file; a read failure (e.g. the file is gone) is
caught and handled by `refreshFile`.  If the content equals the
*captured* record's `code`, return silently.  Otherwise `PATCH /{id}`
with `code || "foo bar"` (JS: an empty string is falsy) and the captured
`updated_at`; on success store the server's record under the captured
relative path, on failure fall back to `refreshFile`.  Note that the
callback never consults `isShuttingDown`. -/
def fireTimerBody (orc : Orc) (s : St) (t : Timer) : St :=
  let relativePath := relativeTo s.viewsDir t.filePath
  match lookupA s.fs t.filePath with
  | none => refreshFile orc s t.filePath
  | some code =>
      if code = t.file.code then s
      else
        let sent := if code = "" then "foo bar" else code
        let s1 := { s with calls := s.calls ++ [ApiCall.patch t.file.id sent t.file.updated_at] }
        match orc.push t.file.id sent t.file.updated_at with
        | Except.ok template => { s1 with fileMap := upd s1.fileMap relativePath template }
        | Except.error _ => refreshFile orc s1 t.filePath

/-- Advance the event loop's clock to `now`: every live timeout whose
fire time has been reached is retired from the timer set and its
callback runs. -/
def fireDue (orc : Orc) (s : St) (now : Nat) : St :=
  (s.pendingUpdates.filter (fun t => t.fireTime ≤ now)).foldl (fireTimerBody orc)
    { s with pendingUpdates := s.pendingUpdates.filter (fun t => ¬ t.fireTime ≤ now) }

/-- A burst of *modified* events for one path at the given instants: at
each instant the event loop first runs any timeout that has come due,
then the watcher delivers the event to `scheduleUpdate`. -/
def runMods (orc : Orc) (s : St) (filePath : String) (ts : List Nat) : St :=
  ts.foldl (fun acc t => scheduleUpdate (fireDue orc acc t) filePath t) s

/-- `createSchema(filePath)` (src/index.js:193-217), run on a *created*
event: bail out during shutdown; `POST /cli` with the relative path,
then `GET /{tmpl_main_id}`.  If the canonical record's path differs,
unwatch the *destination* path, `fs.move(oldPath, newPath)` (which
throws when the source is missing or the destination exists —
`fs-extra`'s default `overwrite: false`), re-add the destination, and
bind the canonical record in `fileMap`.  Any failure in the `try` body —
a failed request or a throwing move — is caught and the local file is
deleted (`fs.unlink(filePath)`). -/
def createSchema (orc : Orc) (s : St) (filePath : String) : St :=
  if s.isShuttingDown then s
  else
    let relativePath := relativeTo s.viewsDir filePath
    let s1 := { s with calls := s.calls ++ [ApiCall.post_cli relativePath] }
    match orc.post relativePath with
    | none => { s1 with fs := removeA s1.fs filePath }
    | some schema =>
        let s2 := { s1 with calls := s1.calls ++ [ApiCall.get schema.tmpl_main_id] }
        match orc.get schema.tmpl_main_id with
        | none => { s2 with fs := removeA s2.fs filePath }
        | some template =>
            if relativePath ≠ template.file_path then
              let newPath := joinPath s2.viewsDir template.file_path
              let s3 := { s2 with
                unwatched := newPath :: s2.unwatched,
                watchLog := s2.watchLog ++ [WatchOp.unwatch newPath] }
              match lookupA s3.fs filePath, lookupA s3.fs newPath with
              | some content, none =>
                  let s4 := { s3 with fs := upd (removeA s3.fs filePath) newPath content }
                  let s5 := { s4 with
                    unwatched := s4.unwatched.erase newPath,
                    watchLog := s4.watchLog ++ [WatchOp.add newPath] }
                  { s5 with fileMap := upd s5.fileMap (normSlash template.file_path) template }
              | _, _ => { s3 with fs := removeA s3.fs filePath }
            else
              { s2 with fileMap := upd s2.fileMap (normSlash template.file_path) template }

/-- `handleExit()` (src/index.js:298-307): re-entry is suppressed by the
`isShuttingDown` flag; the first call sets the flag and runs
`cleanupFiles`.  It neither cancels nor awaits pending timers. -/
def handleExit (s : St) : St :=
  if s.isShuttingDown then s
  else cleanupFiles { s with isShuttingDown := true }

/-! ### Environment selection (src/index.js:75-77) -/

/-- JS `str.split('-')`, character-wise. -/
def splitDashAux : List Char → List Char → List String
  | [], acc => [⟨acc.reverse⟩]
  | c :: cs, acc =>
      if c = '-' then ⟨acc.reverse⟩ :: splitDashAux cs []
      else splitDashAux cs (c :: acc)

/-- JS `str.split('-')`. -/
def splitDash (s : String) : List String :=
  splitDashAux s.data []

/-- JS whitespace for `String.prototype.trim` (ASCII part; tokens are
ASCII). -/
def isJsSpace (c : Char) : Bool :=
  c = ' ' || c = '\t' || c = '\n' || c = '\r' || c = '\x0b' || c = '\x0c'

/-- JS `str.trim()`. -/
def trimJs (s : String) : String :=
  ⟨((s.data.dropWhile isJsSpace).reverse.dropWhile isJsSpace).reverse⟩

/-- ASCII lowercasing of one character (`String.prototype.toLowerCase`
on the ASCII environment names involved here). -/
def lowerChar (c : Char) : Char :=
  if 65 ≤ c.toNat ∧ c.toNat ≤ 90 then Char.ofNat (c.toNat + 32) else c

/-- JS `str.toLowerCase()` (ASCII). -/
def lowerJs (s : String) : String :=
  ⟨s.data.map lowerChar⟩

/-- `ENV = (tokenParts[2] || options.env || "production").toLowerCase()`
with `tokenParts = AUTH_TOKEN.trim().split('-')` (src/index.js:75-76).
`tokenParts[2]` is `undefined` when fewer than three segments exist;
both `undefined` and the empty string are falsy.  `options.env` is
modelled as a string, the empty string standing for an absent value. -/
def initEnv (token envOpt : String) : String :=
  let tokenParts := splitDash (trimJs token)
  let p2 := tokenParts.getD 2 ""
  lowerJs (if p2 ≠ "" then p2 else if envOpt ≠ "" then envOpt else "production")

/-! ### Observation helpers -/

/-- Is a logged call a push (`PATCH`)? -/
def isPatch : ApiCall → Bool
  | ApiCall.patch _ _ _ => true
  | _ => false

/-- The pushes (`PATCH` calls) contained in a call log, in order. -/
def patchCalls (l : List ApiCall) : List ApiCall :=
  l.filter isPatch

/-! ### Concrete fixtures used by witnesses and counterexamples -/

/-- A workspace state common to several scenarios: one known record at
`a.txt`; the shape of the globals right after a snapshot of one file. -/
def baseSt (fm : List (String × Record)) (fs : List (String × String))
    (pend : List Timer) : St :=
  { viewsDir := "root", fileMap := fm, pendingUpdates := pend, fs := fs,
    unwatched := [], watchLog := [], isShuttingDown := false, warnings := 0,
    calls := [] }

def c1rec : Record := ⟨1, "a.txt", "x", 10⟩

def c1orc : Orc :=
  { push := fun i c _ => Except.ok ⟨i, "a.txt", c, 11⟩,
    get := fun _ => none, post := fun _ => none, listing := none }

def c1s : St := baseSt [("a.txt", c1rec)] [("root/a.txt", "z")] []

def c1sEmptyFile : St := baseSt [("a.txt", c1rec)] [("root/a.txt", "")] []

def c2tmpl : Record := ⟨5, "c.txt", "data", 1⟩

def c2orc : Orc :=
  { push := fun _ _ _ => Except.error (),
    get := fun i => if i = 5 then some c2tmpl else none,
    post := fun _ => some ⟨5⟩, listing := none }

def c2s : St := baseSt [] [("root/b.txt", "data")] []

def c3recA : Record := ⟨1, "a.txt", "x", 10⟩

def c3recB : Record := ⟨1, "a.txt", "y", 20⟩

def c3orc : Orc :=
  { push := fun i c _ => Except.ok ⟨i, "a.txt", c, 21⟩,
    get := fun _ => none, post := fun _ => none, listing := none }

/-- A state in which a debounce timer is pending whose captured record
(`c3recA`) is older than the record currently in `fileMap` (`c3recB`).
Reachable in the source: while a push for the record is in flight, a new
*modified* event re-arms the timer capturing the pre-push record; the
push then succeeds and replaces `fileMap[P]` with the server's response,
leaving the armed timer's captured `file` stale. -/
def c3s : St :=
  baseSt [("a.txt", c3recB)] [("root/a.txt", "y")] [⟨1, 1000, "root/a.txt", c3recA⟩]

/-- Same shape with on-disk content equal to the captured record's code. -/
def c3sW : St :=
  baseSt [("a.txt", c3recB)] [("root/a.txt", "x")] [⟨1, 1000, "root/a.txt", c3recA⟩]

def c4rec : Record := ⟨1, "a.txt", "x", 10⟩

def c4fresh : Record := ⟨1, "a.txt", "fresh", 30⟩

def c4orc : Orc :=
  { push := fun _ _ _ => Except.error (),
    get := fun _ => some c4fresh, post := fun _ => none, listing := none }

def c4s : St := baseSt [("a.txt", c4rec)] [("root/a.txt", "local")] []

def c4t : Timer := ⟨1, 1000, "root/a.txt", c4rec⟩

def c5s : St := baseSt [] [("root/q.txt", "w")] []

def c6orcPostFail : Orc :=
  { push := fun _ _ _ => Except.error (),
    get := fun _ => none, post := fun _ => none, listing := none }

def c6orcGetFail : Orc :=
  { push := fun _ _ _ => Except.error (),
    get := fun _ => none, post := fun _ => some ⟨9⟩, listing := none }

def c6s : St := baseSt [] [("root/new.txt", "n")] []

def c7rec1 : Record := ⟨1, "views/a.ejs", "alpha", 1⟩

def c7rec2 : Record := ⟨2, "b.css", "beta", 2⟩

def c7orc : Orc :=
  { push := fun _ _ _ => Except.error (),
    get := fun _ => none, post := fun _ => none,
    listing := some [c7rec1, c7rec2] }

def c7s : St := baseSt [] [] []

/-- A listing whose single record declares the reserved path `AGENT.md`. -/
def c7orcAgent : Orc :=
  { push := fun _ _ _ => Except.error (),
    get := fun _ => none, post := fun _ => none,
    listing := some [⟨7, "AGENT.md", "x", 1⟩] }

def c8s : St := baseSt [("a.txt", c1rec)] [("root/a.txt", "x"), ("root/d/e.txt", "y")] []

def c8sDown : St := { c8s with isShuttingDown := true }

def c9rec : Record := ⟨1, "a.txt", "x", 10⟩

def c9fresh : Record := ⟨1, "a.txt", "fresh", 30⟩

def c9orc : Orc :=
  { push := fun _ _ _ => Except.error (),
    get := fun _ => some c9fresh, post := fun _ => none, listing := none }

def c9t : Timer := ⟨1, 500, "root/a.txt", c9rec⟩

def c9s : St := baseSt [("a.txt", c9rec)] [("root/a.txt", "x")] [c9t]

/-! ### Association-list lemmas -/

theorem lookupA_upd_self {α : Type} (l : List (String × α)) (k : String) (v : α) :
    lookupA (upd l k v) k = some v := by
  induction l with
  | nil => simp [upd, lookupA]
  | cons e rest ih =>
      by_cases he : e.1 = k
      · simp [upd, he, lookupA]
      · simp [upd, he, lookupA, ih]

theorem lookupA_upd_ne {α : Type} (l : List (String × α)) {k k' : String} (v : α)
    (h : k' ≠ k) : lookupA (upd l k v) k' = lookupA l k' := by
  have hk : ¬ k = k' := h.symm
  induction l with
  | nil => simp [upd, lookupA, hk]
  | cons e rest ih =>
      by_cases he : e.1 = k
      · simp [upd, he, lookupA, hk]
      · simp [upd, he, lookupA, ih]

theorem length_upd_of_none {α : Type} (l : List (String × α)) {k : String} (v : α)
    (h : lookupA l k = none) : (upd l k v).length = l.length + 1 := by
  induction l with
  | nil => simp [upd]
  | cons e rest ih =>
      by_cases he : e.1 = k
      · simp [lookupA, he] at h
      · simp only [lookupA, he, if_false, ite_false] at h
        simp [upd, he, ih h]

theorem lookupA_removeA_self {α : Type} (l : List (String × α)) (k : String) :
    lookupA (removeA l k) k = none := by
  induction l with
  | nil => simp [removeA, lookupA]
  | cons e rest ih =>
      by_cases he : e.1 = k
      · simpa [removeA, he] using ih
      · simpa [removeA, he, lookupA] using ih

theorem lookupA_removeA_ne {α : Type} (l : List (String × α)) {k k' : String}
    (h : k' ≠ k) : lookupA (removeA l k) k' = lookupA l k' := by
  have hk : ¬ k = k' := h.symm
  induction l with
  | nil => simp [removeA]
  | cons e rest ih =>
      by_cases he : e.1 = k
      · simp only [removeA, List.filter_cons, decide_not] at ih ⊢
        simp [he, lookupA, hk, ih]
      · simp only [removeA, List.filter_cons, decide_not] at ih ⊢
        simp [he, lookupA, ih]

theorem lookupA_eq_none_of_keys {α : Type} (l : List (String × α)) (k : String)
    (h : ∀ e ∈ l, ¬ e.1 = k) : lookupA l k = none := by
  induction l with
  | nil => rfl
  | cons e rest ih =>
      simp [lookupA, h e (by simp)]
      exact ih (fun e' he' => h e' (by simp [he']))

/-! ### Path lemmas -/

theorem joinPath_inj {r a b : String} (h : joinPath r a = joinPath r b) : a = b := by
  unfold joinPath at h
  have hd := congrArg String.data h
  simp only [String.data_append] at hd
  have := List.append_cancel_left hd
  exact String.ext this

theorem relativeTo_joinPath (root rel : String) (h : normSlash rel = rel) :
    relativeTo root (joinPath root rel) = rel := by
  unfold relativeTo joinPath
  have hdata : (root ++ "/" ++ rel).data = (root.data ++ ['/']) ++ rel.data := by
    simp [String.data_append]
  rw [hdata]
  have hlen : root.data.length + 1 = (root.data ++ ['/']).length := by simp
  rw [hlen, List.drop_left]
  exact h

/-! ### Call-log lemmas -/

theorem patchCalls_append (l1 l2 : List ApiCall) :
    patchCalls (l1 ++ l2) = patchCalls l1 ++ patchCalls l2 := by
  simp [patchCalls, List.filter_append]

theorem patchCalls_get (i : Nat) : patchCalls [ApiCall.get i] = [] := by
  simp [patchCalls, List.filter, isPatch]

theorem patchCalls_patch (i : Nat) (c : String) (u : Nat) :
    patchCalls [ApiCall.patch i c u] = [ApiCall.patch i c u] := by
  simp [patchCalls, List.filter, isPatch]

/-! ### Handler shape lemmas -/

theorem refreshFile_pending (orc : Orc) (s : St) (p : String) :
    (refreshFile orc s p).pendingUpdates = s.pendingUpdates := by
  cases h : lookupA s.fileMap (relativeTo s.viewsDir p) with
  | none => simp [refreshFile, h]
  | some cur => cases hg : orc.get cur.id <;> simp [refreshFile, h, hg]

theorem refreshFile_patchCalls (orc : Orc) (s : St) (p : String) :
    patchCalls (refreshFile orc s p).calls = patchCalls s.calls := by
  cases h : lookupA s.fileMap (relativeTo s.viewsDir p) with
  | none => simp [refreshFile, h]
  | some cur =>
      cases hg : orc.get cur.id <;>
        simp [refreshFile, h, hg, patchCalls_append, patchCalls_get]

theorem fireTimerBody_pending (orc : Orc) (s : St) (t : Timer) :
    (fireTimerBody orc s t).pendingUpdates = s.pendingUpdates := by
  cases h : lookupA s.fs t.filePath with
  | none => simp [fireTimerBody, h, refreshFile_pending]
  | some code =>
      by_cases hc : code = t.file.code
      · simp [fireTimerBody, h, hc]
      · cases hp : orc.push t.file.id (if code = "" then "foo bar" else code) t.file.updated_at with
        | ok template => simp [fireTimerBody, h, hc, hp]
        | error e =>
            simp only [fireTimerBody, h, hc, if_false, ite_false, hp]
            exact refreshFile_pending orc _ t.filePath

theorem fireDue_not_due (orc : Orc) (s : St) (now : Nat)
    (h : ∀ t ∈ s.pendingUpdates, now < t.fireTime) : fireDue orc s now = s := by
  unfold fireDue
  have h1 : s.pendingUpdates.filter (fun t => t.fireTime ≤ now) = [] := by
    rw [List.filter_eq_nil_iff]
    intro t ht
    simpa using Nat.not_le_of_lt (h t ht)
  have h2 : s.pendingUpdates.filter (fun t => ¬ t.fireTime ≤ now) = s.pendingUpdates := by
    rw [List.filter_eq_self]
    intro t ht
    simpa using Nat.not_le_of_lt (h t ht)
  rw [h1, h2]
  rfl

theorem scheduleUpdate_arm (s : St) (p : String) (now : Nat) (rec : Record)
    (h1 : s.isShuttingDown = false)
    (h2 : lookupA s.fileMap (relativeTo s.viewsDir p) = some rec)
    (h3 : rec.id ≠ 0) :
    scheduleUpdate s p now =
      { s with pendingUpdates :=
          s.pendingUpdates.filter (fun t => ¬ t.recId = rec.id)
            ++ [⟨rec.id, now + DEBOUNCE_DELAY, p, rec⟩] } := by
  simp [scheduleUpdate, h1, h2, h3]

/-- Invariant of a *modified*-event burst: starting with exactly the one
timer armed by the event at `t0`, every further event arriving within
the quiet window finds no due timer, cancels the armed one and re-arms
it `DEBOUNCE_DELAY` after itself; nothing else in the state changes. -/
theorem runMods_burst (orc : Orc) (p : String) (rec : Record) :
    ∀ (ts : List Nat) (t0 : Nat) (s : St),
      s.isShuttingDown = false →
      lookupA s.fileMap (relativeTo s.viewsDir p) = some rec →
      rec.id ≠ 0 →
      s.pendingUpdates = [⟨rec.id, t0 + DEBOUNCE_DELAY, p, rec⟩] →
      List.Chain' (fun a b => a < b ∧ b < a + DEBOUNCE_DELAY) (t0 :: ts) →
      runMods orc s p ts =
        { s with pendingUpdates := [⟨rec.id, ts.getLastD t0 + DEBOUNCE_DELAY, p, rec⟩] }
  | [], t0, s, _, _, _, h4, _ => by
      simp [runMods, List.getLastD, ← h4]
  | t1 :: rest, t0, s, h1, h2, h3, h4, h5 => by
      obtain ⟨⟨_, hgap⟩, hrest⟩ := List.chain'_cons.mp h5
      have hfd : fireDue orc s t1 = s := by
        apply fireDue_not_due
        intro t ht
        rw [h4] at ht
        simp at ht
        rw [ht]
        exact hgap
      have harm := scheduleUpdate_arm s p t1 rec h1 h2 h3
      have hstep : scheduleUpdate (fireDue orc s t1) p t1 =
          { s with pendingUpdates := [⟨rec.id, t1 + DEBOUNCE_DELAY, p, rec⟩] } := by
        rw [hfd, harm, h4]
        simp
      have ih := runMods_burst orc p rec rest t1
        { s with pendingUpdates := [⟨rec.id, t1 + DEBOUNCE_DELAY, p, rec⟩] }
        h1 h2 h3 rfl hrest
      calc runMods orc s p (t1 :: rest)
          = runMods orc { s with pendingUpdates := [⟨rec.id, t1 + DEBOUNCE_DELAY, p, rec⟩] }
              p rest := by
            simp only [runMods, List.foldl_cons, hstep]
        _ = { s with pendingUpdates := [⟨rec.id, rest.getLastD t1 + DEBOUNCE_DELAY, p, rec⟩] } := ih
        _ = { s with pendingUpdates :=
                [⟨rec.id, (t1 :: rest).getLastD t0 + DEBOUNCE_DELAY, p, rec⟩] } := by
            rw [List.getLastD_cons]

/-- Re-arming always clears the timer stored under the record's id
before storing the new one, so distinctness of the pending timers' ids
is preserved by `scheduleUpdate`. -/
theorem scheduleUpdate_nodup (s : St) (p : String) (now : Nat)
    (h : List.Nodup (s.pendingUpdates.map Timer.recId)) :
    List.Nodup ((scheduleUpdate s p now).pendingUpdates.map Timer.recId) := by
  cases hs : s.isShuttingDown with
  | true => simpa [scheduleUpdate, hs] using h
  | false =>
      cases hl : lookupA s.fileMap (relativeTo s.viewsDir p) with
      | none => simpa [scheduleUpdate, hs, hl] using h
      | some file =>
          by_cases hid : file.id = 0
          · simpa [scheduleUpdate, hs, hl, hid] using h
          · rw [scheduleUpdate_arm s p now file hs hl hid]
            rw [List.map_append, List.nodup_append]
            refine ⟨?_, by simp, ?_⟩
            · exact h.sublist (List.Sublist.map Timer.recId (List.filter_sublist _))
            · intro a ha
              simp only [List.mem_map, List.mem_filter] at ha
              obtain ⟨t, ⟨_, ht⟩, rfl⟩ := ha
              simp only [List.map_cons, List.map_nil, List.mem_singleton]
              intro hcontra
              rw [hcontra] at ht
              simp at ht

/-- C1 — corrected.  For a burst of `N ≥ 1` *modified* events for a
known record, each consecutive pair closer than `DEBOUNCE_DELAY`:
exactly one timer is pending after the burst, scheduled one quiet period
after the last event (re-arming cancels and replaces, and in general
`scheduleUpdate` preserves at-most-one-timer-per-record-id); no API call
happens during the burst; when the timer fires, a push happens only if
the on-disk content read at that moment differs from the content of the
record captured at arming, and the single `PATCH` issued carries that
on-disk content *except* that empty content is replaced by the literal
`"foo bar"` (src/index.js:180, `code || "foo bar"`).  The original
claim's unconditional "exactly one push ... and the content it sends is
the on-disk content" fails in both respects, see
`debounce_collapse_cex`. -/
theorem debounce_collapse_amended (orc : Orc) (s : St) (rec : Record) (p c : String)
    (t0 : Nat) (ts : List Nat)
    (h1 : s.isShuttingDown = false)
    (h2 : lookupA s.fileMap (relativeTo s.viewsDir p) = some rec)
    (h3 : rec.id ≠ 0)
    (h4 : s.pendingUpdates = [])
    (h5 : List.Chain' (fun a b => a < b ∧ b < a + DEBOUNCE_DELAY) (t0 :: ts))
    (h6 : lookupA s.fs p = some c) :
    runMods orc s p (t0 :: ts) =
      { s with pendingUpdates := [⟨rec.id, ts.getLastD t0 + DEBOUNCE_DELAY, p, rec⟩] } ∧
    (∀ (s' : St) (p' : String) (n' : Nat),
       List.Nodup (s'.pendingUpdates.map Timer.recId) →
       List.Nodup ((scheduleUpdate s' p' n').pendingUpdates.map Timer.recId)) ∧
    (c = rec.code →
       fireDue orc (runMods orc s p (t0 :: ts)) (ts.getLastD t0 + DEBOUNCE_DELAY)
         = { s with pendingUpdates := [] }) ∧
    (c ≠ rec.code →
       patchCalls (fireDue orc (runMods orc s p (t0 :: ts))
           (ts.getLastD t0 + DEBOUNCE_DELAY)).calls
         = patchCalls s.calls
             ++ [ApiCall.patch rec.id (if c = "" then "foo bar" else c) rec.updated_at] ∧
       (fireDue orc (runMods orc s p (t0 :: ts))
           (ts.getLastD t0 + DEBOUNCE_DELAY)).pendingUpdates = []) := by
  have hfd0 : fireDue orc s t0 = s := by
    apply fireDue_not_due
    intro t ht
    rw [h4] at ht
    simp at ht
  have hstep : scheduleUpdate (fireDue orc s t0) p t0 =
      { s with pendingUpdates := [⟨rec.id, t0 + DEBOUNCE_DELAY, p, rec⟩] } := by
    rw [hfd0, scheduleUpdate_arm s p t0 rec h1 h2 h3, h4]
    simp
  have hrun : runMods orc s p (t0 :: ts) =
      { s with pendingUpdates := [⟨rec.id, ts.getLastD t0 + DEBOUNCE_DELAY, p, rec⟩] } := by
    have := runMods_burst orc p rec ts t0
      { s with pendingUpdates := [⟨rec.id, t0 + DEBOUNCE_DELAY, p, rec⟩] }
      h1 h2 h3 rfl h5
    calc runMods orc s p (t0 :: ts)
        = runMods orc { s with pendingUpdates := [⟨rec.id, t0 + DEBOUNCE_DELAY, p, rec⟩] }
            p ts := by simp only [runMods, List.foldl_cons, hstep]
      _ = _ := this
  have hfire : fireDue orc (runMods orc s p (t0 :: ts)) (ts.getLastD t0 + DEBOUNCE_DELAY)
      = fireTimerBody orc { s with pendingUpdates := [] }
          ⟨rec.id, ts.getLastD t0 + DEBOUNCE_DELAY, p, rec⟩ := by
    rw [hrun]
    simp [fireDue]
  refine ⟨hrun, scheduleUpdate_nodup, ?_, ?_⟩
  · intro hc
    rw [hfire]
    simp [fireTimerBody, h6, hc]
  · intro hc
    rw [hfire]
    cases hp : orc.push rec.id (if c = "" then "foo bar" else c) rec.updated_at with
    | ok template =>
        simp [fireTimerBody, h6, hc, hp, patchCalls_append, patchCalls_patch]
    | error e =>
        simp only [fireTimerBody, h6, hc, if_false, ite_false, hp]
        constructor
        · rw [refreshFile_patchCalls]
          simp [patchCalls_append, patchCalls_patch]
        · rw [refreshFile_pending]

/-- Witness for `debounce_collapse_amended`: two *modified* events at
`t = 0` and `t = 500` for the known record of `c1s` collapse into a
single timer firing at `1500`, and the fire issues exactly one `PATCH`
carrying the on-disk content `"z"`. -/
theorem debounce_collapse_amended_witness :
    runMods c1orc c1s "root/a.txt" [0, 500] =
      { c1s with pendingUpdates := [⟨1, 1500, "root/a.txt", c1rec⟩] } ∧
    patchCalls (fireDue c1orc (runMods c1orc c1s "root/a.txt" [0, 500]) 1500).calls
      = [ApiCall.patch 1 "z" 10] := by
  have h := debounce_collapse_amended c1orc c1s c1rec "root/a.txt" "z" 0 [500]
    rfl rfl (by decide) rfl
    (List.chain'_cons.mpr ⟨⟨by decide, by decide⟩, List.chain'_singleton _⟩) rfl
  exact ⟨h.1, ((h.2.2.2 (by decide)).1).trans (by decide)⟩

/-- C1 — counterexample to the claim as stated.  One *modified* event
for a record whose file is empty on disk at fire time: the claim
promises exactly one `PATCH` whose content is the on-disk content
(`""`), but the code sends the placeholder `"foo bar"`
(src/index.js:180, `code: code || "foo bar"`).  (Had the on-disk content
equalled the captured record's `code`, zero pushes would occur — the
other failure of the unconditional claim, proved in
`noop_suppression_amended`.) -/
theorem debounce_collapse_cex :
    lookupA c1sEmptyFile.fs "root/a.txt" = some "" ∧
    (fireDue c1orc (runMods c1orc c1sEmptyFile "root/a.txt" [0]) 1000).calls
      = [ApiCall.patch 1 "foo bar" 10] ∧
    ("foo bar" : String) ≠ "" := by
  refine ⟨rfl, by decide, by decide⟩

/-- C3 — corrected.  When an armed timer fires and the on-disk content
equals the `code` of the record *captured when the timer was armed*
(`file.code` in the closure, src/index.js:175), the timer is retired
silently: no API call, no other state change.  The claim's comparison
point — `SyncMap[P].content` *as it stands at fire time* — is not what
the code compares against; see `noop_suppression_cex`. -/
theorem noop_suppression_amended (orc : Orc) (s : St) (t : Timer) (now : Nat)
    (h1 : s.pendingUpdates = [t])
    (h2 : t.fireTime ≤ now)
    (h3 : lookupA s.fs t.filePath = some t.file.code) :
    fireDue orc s now = { s with pendingUpdates := [] } := by
  have hfire : fireDue orc s now = fireTimerBody orc { s with pendingUpdates := [] } t := by
    simp [fireDue, h1, h2]
  rw [hfire]
  simp [fireTimerBody, h3]

/-- Witness for `noop_suppression_amended`: the armed timer of `c3sW`
captured `c3recA` (code `"x"`), the disk holds `"x"` at fire time, and
firing at `1000` retires the timer with no call. -/
theorem noop_suppression_amended_witness :
    fireDue c3orc c3sW 1000 = { c3sW with pendingUpdates := [] } :=
  noop_suppression_amended c3orc c3sW ⟨1, 1000, "root/a.txt", c3recA⟩ 1000
    rfl (by decide) rfl

/-- C3 — counterexample to the claim as stated.  In `c3s` the pending
timer captured `c3recA` (code `"x"`) while `fileMap["a.txt"]` now holds
`c3recB` (code `"y"`) — reachable by re-arming during an in-flight push
that then succeeds and replaces the map entry.  At fire time the on-disk
content `"y"` is byte-identical to `SyncMap[P].content` *as it stands at
fire time* (`c3recB.code`), so the claim promises zero pushes; the code
compares against the stale captured `"x"` and issues a `PATCH`. -/
theorem noop_suppression_cex :
    lookupA c3s.fileMap (relativeTo c3s.viewsDir "root/a.txt") = some c3recB ∧
    lookupA c3s.fs "root/a.txt" = some c3recB.code ∧
    c3s.pendingUpdates = [⟨1, 1000, "root/a.txt", c3recA⟩] ∧
    (fireDue c3orc c3s 1000).calls = [ApiCall.patch 1 "y" 10] := by
  refine ⟨rfl, rfl, rfl, by decide⟩

/-- C4 — confirmed.  When the `PATCH` for a fired timer fails, the
handler re-fetches the record *by the id currently recorded in
`fileMap` for the path* (src/index.js:104, re-read, not the captured
one), overwrites the on-disk file with exactly the fetched `code`,
replaces the `fileMap` entry with the fetched record, and the call log
shows exactly one `PATCH` followed by one `GET` — the push is not
retried and the local edit is not preserved. -/
theorem conflict_resolution (orc : Orc) (s : St) (t : Timer) (c : String)
    (cur template : Record)
    (hd : lookupA s.fs t.filePath = some c)
    (hne : c ≠ t.file.code)
    (hpush : orc.push t.file.id (if c = "" then "foo bar" else c) t.file.updated_at
      = Except.error ())
    (hcur : lookupA s.fileMap (relativeTo s.viewsDir t.filePath) = some cur)
    (hget : orc.get cur.id = some template) :
    lookupA (fireTimerBody orc s t).fs t.filePath = some template.code ∧
    lookupA (fireTimerBody orc s t).fileMap (relativeTo s.viewsDir t.filePath)
      = some template ∧
    (fireTimerBody orc s t).calls
      = s.calls ++ [ApiCall.patch t.file.id (if c = "" then "foo bar" else c)
                      t.file.updated_at,
                    ApiCall.get cur.id] := by
  simp only [fireTimerBody, hd, hne, if_false, ite_false, hpush]
  simp [refreshFile, hcur, hget, lookupA_upd_self]

/-- Witness for `conflict_resolution`: the failed push of `"local"` for
`c4t` ends with the disk and map holding the freshly fetched `c4fresh`,
after exactly one `PATCH` and one `GET`. -/
theorem conflict_resolution_witness :
    lookupA (fireTimerBody c4orc c4s c4t).fs "root/a.txt" = some "fresh" ∧
    lookupA (fireTimerBody c4orc c4s c4t).fileMap "a.txt" = some c4fresh ∧
    (fireTimerBody c4orc c4s c4t).calls
      = [ApiCall.patch 1 "local" 10, ApiCall.get 1] := by
  have h := conflict_resolution c4orc c4s c4t "local" c4rec c4fresh
    rfl (by decide) rfl rfl rfl
  exact ⟨h.1, h.2.1, h.2.2.trans (by decide)⟩

/-- C5 — confirmed.  A *modified* event for a path with no `fileMap`
entry emits a warning and does nothing else: no API call, no timer, and
`fileMap` untouched (src/index.js:159-162). -/
theorem unknown_path_safety (s : St) (p : String) (now : Nat)
    (h1 : s.isShuttingDown = false)
    (h2 : lookupA s.fileMap (relativeTo s.viewsDir p) = none) :
    scheduleUpdate s p now = { s with warnings := s.warnings + 1 } ∧
    (scheduleUpdate s p now).calls = s.calls ∧
    (scheduleUpdate s p now).pendingUpdates = s.pendingUpdates ∧
    (scheduleUpdate s p now).fileMap = s.fileMap ∧
    (scheduleUpdate s p now).warnings = s.warnings + 1 := by
  have he : scheduleUpdate s p now = { s with warnings := s.warnings + 1 } := by
    simp [scheduleUpdate, h1, h2]
  rw [he]
  exact ⟨rfl, rfl, rfl, rfl, rfl⟩

/-- Witness for `unknown_path_safety`: a *modified* event for
`root/q.txt`, unknown to the empty `fileMap` of `c5s`. -/
theorem unknown_path_safety_witness :
    scheduleUpdate c5s "root/q.txt" 7 = { c5s with warnings := c5s.warnings + 1 } ∧
    (scheduleUpdate c5s "root/q.txt" 7).calls = c5s.calls ∧
    (scheduleUpdate c5s "root/q.txt" 7).pendingUpdates = c5s.pendingUpdates ∧
    (scheduleUpdate c5s "root/q.txt" 7).fileMap = c5s.fileMap ∧
    (scheduleUpdate c5s "root/q.txt" 7).warnings = c5s.warnings + 1 :=
  unknown_path_safety c5s "root/q.txt" 7 rfl rfl

/-- C2 — corrected.  After a *created* event whose provisioning assigns
a different canonical path: the file's bytes are unchanged and located
at the canonical path, `fileMap` has the fetched record under the
canonical path and no entry under the old path — but the watcher bracket
`unwatch`/`add` targets the *canonical (new)* path
(src/index.js:205-207), not the old one: the old path's watch status is
unchanged (it stays inside the recursively watched tree; the file simply
no longer exists there).  The claim's "the old path P is no longer
watched" is refuted by `provision_rename_cex`. -/
theorem provision_rename_amended (orc : Orc) (s : St) (rel content : String)
    (schema : SchemaResp) (template : Record)
    (h1 : s.isShuttingDown = false)
    (h2 : normSlash rel = rel)
    (h3 : orc.post rel = some schema)
    (h4 : orc.get schema.tmpl_main_id = some template)
    (h5 : template.file_path ≠ rel)
    (h6 : normSlash template.file_path = template.file_path)
    (h7 : lookupA s.fs (joinPath s.viewsDir rel) = some content)
    (h8 : lookupA s.fs (joinPath s.viewsDir template.file_path) = none)
    (h9 : lookupA s.fileMap rel = none) :
    lookupA (createSchema orc s (joinPath s.viewsDir rel)).fs
        (joinPath s.viewsDir template.file_path) = some content ∧
    lookupA (createSchema orc s (joinPath s.viewsDir rel)).fs
        (joinPath s.viewsDir rel) = none ∧
    lookupA (createSchema orc s (joinPath s.viewsDir rel)).fileMap template.file_path
      = some template ∧
    lookupA (createSchema orc s (joinPath s.viewsDir rel)).fileMap rel = none ∧
    (createSchema orc s (joinPath s.viewsDir rel)).unwatched = s.unwatched ∧
    (createSchema orc s (joinPath s.viewsDir rel)).watchLog
      = s.watchLog ++ [WatchOp.unwatch (joinPath s.viewsDir template.file_path),
                       WatchOp.add (joinPath s.viewsDir template.file_path)] := by
  have hrel : relativeTo s.viewsDir (joinPath s.viewsDir rel) = rel :=
    relativeTo_joinPath _ _ h2
  have hneq : joinPath s.viewsDir rel ≠ joinPath s.viewsDir template.file_path := by
    intro hcontra
    exact h5 (joinPath_inj hcontra).symm
  have hcs : createSchema orc s (joinPath s.viewsDir rel) =
      { s with
        calls := s.calls ++ [ApiCall.post_cli rel, ApiCall.get schema.tmpl_main_id],
        watchLog := s.watchLog ++ [WatchOp.unwatch (joinPath s.viewsDir template.file_path),
                                   WatchOp.add (joinPath s.viewsDir template.file_path)],
        fs := upd (removeA s.fs (joinPath s.viewsDir rel))
                (joinPath s.viewsDir template.file_path) content,
        fileMap := upd s.fileMap template.file_path template } := by
    simp [createSchema, h1, hrel, h3, h4, Ne.symm h5, h7, h8, h6]
  rw [hcs]
  refine ⟨lookupA_upd_self _ _ _, ?_, lookupA_upd_self _ _ _, ?_, rfl, rfl⟩
  · rw [lookupA_upd_ne _ _ hneq]
    exact lookupA_removeA_self _ _
  · rw [lookupA_upd_ne _ _ (Ne.symm h5)]
    exact h9

/-- Witness for `provision_rename_amended`: the *created* file
`root/b.txt` is provisioned to canonical path `c.txt`; its content
`"data"` ends up at `root/c.txt`, the old path is gone from disk and
absent from `fileMap`, and the watcher ops bracket the new path. -/
theorem provision_rename_amended_witness :
    lookupA (createSchema c2orc c2s (joinPath c2s.viewsDir "b.txt")).fs
        (joinPath c2s.viewsDir c2tmpl.file_path) = some "data" ∧
    lookupA (createSchema c2orc c2s (joinPath c2s.viewsDir "b.txt")).fs
        (joinPath c2s.viewsDir "b.txt") = none ∧
    lookupA (createSchema c2orc c2s (joinPath c2s.viewsDir "b.txt")).fileMap
        c2tmpl.file_path = some c2tmpl ∧
    lookupA (createSchema c2orc c2s (joinPath c2s.viewsDir "b.txt")).fileMap "b.txt"
      = none := by
  have h := provision_rename_amended c2orc c2s "b.txt" "data" ⟨5⟩ c2tmpl
    rfl (by decide) rfl rfl (by decide) (by decide) rfl rfl rfl
  exact ⟨h.1, h.2.1, h.2.2.1, h.2.2.2.1⟩

/-- C2 — counterexample to the claim as stated.  After the
provision-then-rename of `root/b.txt` to `root/c.txt`, the old path
`root/b.txt` is *still watched* (it was never unwatched — the
`unwatch`/`add` pair targets the new path `root/c.txt`), although the
file was correctly moved.  The claim asserts "the old path P is no
longer watched". -/
theorem provision_rename_cex :
    (createSchema c2orc c2s "root/b.txt").watchLog
      = [WatchOp.unwatch "root/c.txt", WatchOp.add "root/c.txt"] ∧
    watchedPath (createSchema c2orc c2s "root/b.txt") "root/b.txt" = true ∧
    lookupA (createSchema c2orc c2s "root/b.txt").fs "root/c.txt" = some "data" ∧
    lookupA (createSchema c2orc c2s "root/b.txt").fs "root/b.txt" = none := by
  refine ⟨by decide, by decide, by decide, by decide⟩

/-- C6 — confirmed.  If provisioning (`POST /cli`) or the follow-up
fetch (`GET /{tmpl_main_id}`) fails on a *created* event, the local file
is deleted, `fileMap` is untouched, and the call log shows the attempt
was not retried (src/index.js:212-216). -/
theorem provision_failure_cleanup (orc : Orc) (s : St) (p : String)
    (h1 : s.isShuttingDown = false) :
    (orc.post (relativeTo s.viewsDir p) = none →
       (createSchema orc s p).fs = removeA s.fs p ∧
       lookupA (createSchema orc s p).fs p = none ∧
       (createSchema orc s p).fileMap = s.fileMap ∧
       (createSchema orc s p).calls
         = s.calls ++ [ApiCall.post_cli (relativeTo s.viewsDir p)]) ∧
    (∀ schema : SchemaResp, orc.post (relativeTo s.viewsDir p) = some schema →
       orc.get schema.tmpl_main_id = none →
       (createSchema orc s p).fs = removeA s.fs p ∧
       lookupA (createSchema orc s p).fs p = none ∧
       (createSchema orc s p).fileMap = s.fileMap ∧
       (createSchema orc s p).calls
         = s.calls ++ [ApiCall.post_cli (relativeTo s.viewsDir p),
                       ApiCall.get schema.tmpl_main_id]) := by
  constructor
  · intro hp
    simp [createSchema, h1, hp, lookupA_removeA_self]
  · intro schema hp hg
    simp [createSchema, h1, hp, hg, lookupA_removeA_self]

/-- Witness for `provision_failure_cleanup`: both failure modes on the
*created* file `root/new.txt` — failed provisioning and failed follow-up
fetch — delete the file, leave `fileMap` empty and issue no retry. -/
theorem provision_failure_cleanup_witness :
    lookupA (createSchema c6orcPostFail c6s "root/new.txt").fs "root/new.txt" = none ∧
    (createSchema c6orcPostFail c6s "root/new.txt").fileMap = c6s.fileMap ∧
    lookupA (createSchema c6orcGetFail c6s "root/new.txt").fs "root/new.txt" = none ∧
    (createSchema c6orcGetFail c6s "root/new.txt").calls
      = [ApiCall.post_cli "new.txt", ApiCall.get 9] := by
  have ha := (provision_failure_cleanup c6orcPostFail c6s "root/new.txt" rfl).1 rfl
  have hb := (provision_failure_cleanup c6orcGetFail c6s "root/new.txt" rfl).2 ⟨9⟩ rfl rfl
  exact ⟨ha.2.1, ha.2.2.1, hb.2.1, hb.2.2.2.trans (by decide)⟩

/-! ### Snapshot-loop lemmas -/

theorem fetchStep_viewsDir (s : St) (f : Record) : (fetchStep s f).viewsDir = s.viewsDir := by
  unfold fetchStep
  split <;> rfl

theorem fetchLoop_viewsDir (files : List Record) :
    ∀ s : St, (fetchLoop s files).viewsDir = s.viewsDir := by
  induction files with
  | nil => intro s; rfl
  | cons f rest ih =>
      intro s
      exact (ih (fetchStep s f)).trans (fetchStep_viewsDir s f)

theorem fetchStep_fileMap_ne (s : St) (f : Record) (k : String)
    (h : ¬ normSlash f.file_path = k) :
    lookupA (fetchStep s f).fileMap k = lookupA s.fileMap k := by
  unfold fetchStep
  split
  · exact lookupA_upd_ne _ _ (Ne.symm h)
  · rfl

theorem fetchStep_fs_ne (s : St) (f : Record) (k : String)
    (h : ¬ joinPath s.viewsDir f.file_path = k) :
    lookupA (fetchStep s f).fs k = lookupA s.fs k := by
  unfold fetchStep
  split
  · exact lookupA_upd_ne _ _ (Ne.symm h)
  · rfl

theorem fetchLoop_fileMap_ne (files : List Record) :
    ∀ (s : St) (k : String), (∀ f ∈ files, ¬ normSlash f.file_path = k) →
      lookupA (fetchLoop s files).fileMap k = lookupA s.fileMap k := by
  induction files with
  | nil => intro s k _; rfl
  | cons g rest ih =>
      intro s k h
      have h1 := ih (fetchStep s g) k (fun f hf => h f (List.mem_cons_of_mem g hf))
      exact h1.trans (fetchStep_fileMap_ne s g k (h g (List.mem_cons_self g rest)))

theorem fetchLoop_fs_ne (files : List Record) :
    ∀ (s : St) (k : String), (∀ f ∈ files, ¬ joinPath s.viewsDir f.file_path = k) →
      lookupA (fetchLoop s files).fs k = lookupA s.fs k := by
  induction files with
  | nil => intro s k _; rfl
  | cons g rest ih =>
      intro s k h
      have h1 := ih (fetchStep s g) k (fun f hf => by
        rw [fetchStep_viewsDir]
        exact h f (List.mem_cons_of_mem g hf))
      exact h1.trans (fetchStep_fs_ne s g k (h g (List.mem_cons_self g rest)))

theorem fetchLoop_mem (files : List Record) :
    ∀ s : St,
      (files.map fun f => normSlash f.file_path).Nodup →
      (∀ f ∈ files, f.file_path ≠ "") →
      ∀ f ∈ files,
        lookupA (fetchLoop s files).fileMap (normSlash f.file_path) = some f ∧
        lookupA (fetchLoop s files).fs (joinPath s.viewsDir f.file_path) = some f.code := by
  induction files with
  | nil => intro s _ _ f hf; simp at hf
  | cons g rest ih =>
      intro s hnd hne f hf
      rw [List.map_cons, List.nodup_cons] at hnd
      obtain ⟨hgnotin, hnd'⟩ := hnd
      have hkeysfm : ∀ r ∈ rest, ¬ normSlash r.file_path = normSlash g.file_path := by
        intro r hr hc
        apply hgnotin
        rw [← hc]
        exact List.mem_map_of_mem _ hr
      have hstep : fetchStep s g =
          { s with
            fs := upd s.fs (joinPath s.viewsDir g.file_path) g.code,
            fileMap := upd s.fileMap (normSlash g.file_path) g } := by
        unfold fetchStep
        rw [if_pos (hne g (List.mem_cons_self g rest))]
      rcases List.mem_cons.mp hf with hfg | hfr
      · have hfm1 : lookupA (fetchLoop s (g :: rest)).fileMap (normSlash g.file_path)
            = some g := by
          have h1 := fetchLoop_fileMap_ne rest (fetchStep s g) (normSlash g.file_path) hkeysfm
          rw [show fetchLoop s (g :: rest) = fetchLoop (fetchStep s g) rest from rfl, h1,
            hstep]
          exact lookupA_upd_self _ _ _
        have hfs1 : lookupA (fetchLoop s (g :: rest)).fs (joinPath s.viewsDir g.file_path)
            = some g.code := by
          have hkeysfs : ∀ r ∈ rest,
              ¬ joinPath (fetchStep s g).viewsDir r.file_path
                = joinPath s.viewsDir g.file_path := by
            intro r hr hc
            rw [fetchStep_viewsDir] at hc
            exact hkeysfm r hr (congrArg normSlash (joinPath_inj hc))
          have h2 := fetchLoop_fs_ne rest (fetchStep s g)
            (joinPath s.viewsDir g.file_path) hkeysfs
          rw [show fetchLoop s (g :: rest) = fetchLoop (fetchStep s g) rest from rfl, h2,
            hstep]
          exact lookupA_upd_self _ _ _
        rw [hfg]
        exact ⟨hfm1, hfs1⟩
      · have h3 := ih (fetchStep s g) hnd'
          (fun r hr => hne r (List.mem_cons_of_mem g hr)) f hfr
        refine ⟨h3.1, ?_⟩
        have := h3.2
        rwa [fetchStep_viewsDir] at this

theorem fetchLoop_length (files : List Record) :
    ∀ s : St,
      (files.map fun f => normSlash f.file_path).Nodup →
      (∀ f ∈ files, f.file_path ≠ "") →
      (∀ f ∈ files, lookupA s.fileMap (normSlash f.file_path) = none) →
      (fetchLoop s files).fileMap.length = s.fileMap.length + files.length := by
  induction files with
  | nil => intro s _ _ _; rfl
  | cons g rest ih =>
      intro s hnd hne habs
      rw [List.map_cons, List.nodup_cons] at hnd
      obtain ⟨hgnotin, hnd'⟩ := hnd
      have hstep : (fetchStep s g).fileMap = upd s.fileMap (normSlash g.file_path) g := by
        unfold fetchStep
        rw [if_pos (hne g (List.mem_cons_self g rest))]
      have habs' : ∀ r ∈ rest, lookupA (fetchStep s g).fileMap (normSlash r.file_path) = none := by
        intro r hr
        have hrne : normSlash r.file_path ≠ normSlash g.file_path := by
          intro hc
          apply hgnotin
          rw [← hc]
          exact List.mem_map_of_mem _ hr
        rw [hstep, lookupA_upd_ne _ _ hrne]
        exact habs r (List.mem_cons_of_mem g hr)
      have h1 := ih (fetchStep s g) hnd' (fun r hr => hne r (List.mem_cons_of_mem g hr)) habs'
      rw [show fetchLoop s (g :: rest) = fetchLoop (fetchStep s g) rest from rfl, h1, hstep,
        length_upd_of_none _ _ (habs g (List.mem_cons_self g rest))]
      simp [Nat.add_assoc, Nat.add_comm 1 rest.length]

/-- C7 — corrected.  After `fetchFiles` with a listing of `K` records,
each declaring a nonempty path, pairwise distinct under the
slash-normalization that is the program's only path equality: every
record's `code` is on disk at its declared path under the root,
`fileMap` binds each normalized path to its record and holds exactly `K`
entries — *provided no record declares the reserved path `AGENT.md`*:
the static reference document is written last and would overwrite such a
record's file (see `snapshot_completeness_cex`).  The document itself is
also on disk at the root. -/
theorem snapshot_completeness_amended (orc : Orc) (s : St) (files : List Record)
    (hl : orc.listing = some files)
    (hnd : (files.map fun f => normSlash f.file_path).Nodup)
    (hne : ∀ f ∈ files, f.file_path ≠ "")
    (hag : ∀ f ∈ files, normSlash f.file_path ≠ "AGENT.md")
    (hfm : s.fileMap = []) :
    (∀ f ∈ files,
       lookupA (fetchFiles orc s).fs (joinPath s.viewsDir f.file_path) = some f.code) ∧
    (∀ f ∈ files,
       lookupA (fetchFiles orc s).fileMap (normSlash f.file_path) = some f) ∧
    (fetchFiles orc s).fileMap.length = files.length ∧
    lookupA (fetchFiles orc s).fs (joinPath s.viewsDir "AGENT.md") = some agentMdContent := by
  have hff : fetchFiles orc s =
      { fetchLoop { s with calls := s.calls ++ [ApiCall.list] } files with
        fs := upd (fetchLoop { s with calls := s.calls ++ [ApiCall.list] } files).fs
            (joinPath (fetchLoop { s with calls := s.calls ++ [ApiCall.list] } files).viewsDir
              "AGENT.md")
            agentMdContent } := by
    simp [fetchFiles, hl]
  have hvd : (fetchLoop { s with calls := s.calls ++ [ApiCall.list] } files).viewsDir
      = s.viewsDir := fetchLoop_viewsDir files _
  have hmem := fetchLoop_mem files { s with calls := s.calls ++ [ApiCall.list] } hnd hne
  refine ⟨?_, ?_, ?_, ?_⟩
  · intro f hf
    rw [hff]
    have hkey : joinPath s.viewsDir f.file_path ≠ joinPath s.viewsDir "AGENT.md" := by
      intro hc
      exact hag f hf (by rw [joinPath_inj hc]; decide)
    show lookupA (upd (fetchLoop { s with calls := s.calls ++ [ApiCall.list] } files).fs
        (joinPath (fetchLoop { s with calls := s.calls ++ [ApiCall.list] } files).viewsDir
          "AGENT.md") agentMdContent)
      (joinPath s.viewsDir f.file_path) = some f.code
    rw [hvd, lookupA_upd_ne _ _ hkey]
    exact (hmem f hf).2
  · intro f hf
    rw [hff]
    exact (hmem f hf).1
  · rw [hff]
    show (fetchLoop { s with calls := s.calls ++ [ApiCall.list] } files).fileMap.length
      = files.length
    have habs : ∀ f ∈ files,
        lookupA ({ s with calls := s.calls ++ [ApiCall.list] } : St).fileMap
          (normSlash f.file_path) = none := by
      intro f _
      show lookupA s.fileMap _ = none
      rw [hfm]
      rfl
    rw [fetchLoop_length files { s with calls := s.calls ++ [ApiCall.list] } hnd hne habs]
    show s.fileMap.length + files.length = files.length
    rw [hfm]
    simp
  · rw [hff]
    show lookupA (upd (fetchLoop { s with calls := s.calls ++ [ApiCall.list] } files).fs
        (joinPath (fetchLoop { s with calls := s.calls ++ [ApiCall.list] } files).viewsDir
          "AGENT.md") agentMdContent)
      (joinPath s.viewsDir "AGENT.md") = some agentMdContent
    rw [hvd]
    exact lookupA_upd_self _ _ _

/-- Witness for `snapshot_completeness_amended`: the two-record listing
of `c7orc` materializes both files with their contents and leaves
exactly two `fileMap` entries. -/
theorem snapshot_completeness_amended_witness :
    lookupA (fetchFiles c7orc c7s).fs (joinPath c7s.viewsDir c7rec1.file_path)
      = some c7rec1.code ∧
    lookupA (fetchFiles c7orc c7s).fileMap (normSlash c7rec2.file_path) = some c7rec2 ∧
    (fetchFiles c7orc c7s).fileMap.length = 2 := by
  have h := snapshot_completeness_amended c7orc c7s [c7rec1, c7rec2]
    rfl (by decide) (by decide) (by decide) rfl
  exact ⟨h.1 c7rec1 (by simp), h.2.1 c7rec2 (by simp), h.2.2.1⟩

/-- C7 — counterexample to the claim as stated.  A listing consisting of
the single record `⟨7, "AGENT.md", "x", 1⟩` (one record, a declared,
trivially pairwise-distinct path): after the snapshot the file at its
declared path holds the static reference document, not the record's
`code` `"x"` — `fetchFiles` writes `AGENT.md` last
(src/index.js:134). -/
theorem snapshot_completeness_cex :
    c7orcAgent.listing = some [⟨7, "AGENT.md", "x", 1⟩] ∧
    lookupA (fetchFiles c7orcAgent c7s).fs (joinPath c7s.viewsDir "AGENT.md")
      = some agentMdContent ∧
    agentMdContent ≠ "x" := by
  refine ⟨rfl, rfl, by decide⟩

/-- C8 — confirmed.  The first `handleExit` deletes the workspace
directory and every descendant; a second invocation is a no-op (the
`isShuttingDown` flag guards re-entry); and once the flag is set, every
*modified* and every *created* event is ignored without any action
(src/index.js:154, 194, 298-300). -/
theorem teardown_idempotent (s : St) (p : String) (now : Nat) (orc : Orc) :
    (s.isShuttingDown = false →
       ∀ e ∈ (handleExit s).fs, underDir s.viewsDir e.1 = false) ∧
    handleExit (handleExit s) = handleExit s ∧
    (s.isShuttingDown = true →
       scheduleUpdate s p now = s ∧ createSchema orc s p = s) := by
  refine ⟨?_, ?_, ?_⟩
  · intro hs e he
    rw [handleExit] at he
    simp only [hs, Bool.false_eq_true, if_false, ite_false] at he
    simp only [cleanupFiles, List.mem_filter] at he
    simpa using he.2
  · cases hs : s.isShuttingDown with
    | true => simp [handleExit, hs]
    | false => simp [handleExit, hs, cleanupFiles]
  · intro hs
    exact ⟨by simp [scheduleUpdate, hs], by simp [createSchema, hs]⟩

/-- Witness for `teardown_idempotent`: shutting down `c8s` empties the
workspace tree and is idempotent; on the already-shutting-down `c8sDown`
both event handlers are no-ops. -/
theorem teardown_idempotent_witness :
    (∀ e ∈ (handleExit c8s).fs, underDir c8s.viewsDir e.1 = false) ∧
    handleExit (handleExit c8s) = handleExit c8s ∧
    (scheduleUpdate c8sDown "root/a.txt" 3 = c8sDown ∧
     createSchema c1orc c8sDown "root/a.txt" = c8sDown) :=
  ⟨(teardown_idempotent c8s "root/a.txt" 3 c1orc).1 rfl,
   (teardown_idempotent c8s "root/a.txt" 3 c1orc).2.1,
   (teardown_idempotent c8sDown "root/a.txt" 3 c1orc).2.2 rfl⟩

/-- C9 — corrected.  `handleExit` neither drains, awaits, nor *cancels*
pending debounce timers: the timer set and the call log are untouched
while the workspace files are reaped.  But the claim's "its work is
lost: no push ... and no further local file writes occur from it after
the workspace is reaped" is not guaranteed: the timer callback has no
shutdown check (src/index.js:170-190), so a timer firing after the reap
fails its file read, issues no `PATCH` — and then `refreshFile`
re-fetches the record (`GET`) and *re-creates the local file* under the
reaped workspace path (src/index.js:107); see
`shutdown_pending_lost_cex`. -/
theorem shutdown_pending_lost_amended (orc : Orc) (s : St) (t : Timer)
    (cur template : Record)
    (h0 : s.isShuttingDown = false)
    (h1 : underDir s.viewsDir t.filePath = true)
    (h2 : lookupA s.fileMap (relativeTo s.viewsDir t.filePath) = some cur)
    (h3 : orc.get cur.id = some template) :
    (handleExit s).pendingUpdates = s.pendingUpdates ∧
    (handleExit s).calls = s.calls ∧
    lookupA (handleExit s).fs t.filePath = none ∧
    patchCalls (fireTimerBody orc (handleExit s) t).calls = patchCalls s.calls ∧
    (fireTimerBody orc (handleExit s) t).calls = s.calls ++ [ApiCall.get cur.id] ∧
    lookupA (fireTimerBody orc (handleExit s) t).fs t.filePath = some template.code := by
  have hex : handleExit s = cleanupFiles { s with isShuttingDown := true } := by
    simp [handleExit, h0]
  have hfsnone : lookupA (handleExit s).fs t.filePath = none := by
    rw [hex]
    apply lookupA_eq_none_of_keys
    intro e he hek
    simp only [cleanupFiles, List.mem_filter] at he
    have := he.2
    rw [hek] at this
    simp [h1] at this
  have hbody : fireTimerBody orc (handleExit s) t
      = refreshFile orc (handleExit s) t.filePath := by
    simp [fireTimerBody, hfsnone]
  have hvd : (handleExit s).viewsDir = s.viewsDir := by rw [hex]; rfl
  have hfm : (handleExit s).fileMap = s.fileMap := by rw [hex]; rfl
  have hcalls : (handleExit s).calls = s.calls := by rw [hex]; rfl
  have hcur' : lookupA (handleExit s).fileMap (relativeTo (handleExit s).viewsDir t.filePath)
      = some cur := by rw [hvd, hfm]; exact h2
  have hrf : refreshFile orc (handleExit s) t.filePath
      = { handleExit s with
          calls := (handleExit s).calls ++ [ApiCall.get cur.id],
          fileMap := upd (handleExit s).fileMap
            (relativeTo (handleExit s).viewsDir t.filePath) template,
          fs := upd (handleExit s).fs t.filePath template.code } := by
    simp [refreshFile, hcur', h3]
  refine ⟨by rw [hex]; rfl, hcalls, hfsnone, ?_, ?_, ?_⟩
  · rw [hbody, hrf]
    show patchCalls ((handleExit s).calls ++ [ApiCall.get cur.id]) = patchCalls s.calls
    rw [patchCalls_append, patchCalls_get, hcalls]
    simp
  · rw [hbody, hrf]
    show (handleExit s).calls ++ [ApiCall.get cur.id] = s.calls ++ [ApiCall.get cur.id]
    rw [hcalls]
  · rw [hbody, hrf]
    show lookupA (upd (handleExit s).fs t.filePath template.code) t.filePath
      = some template.code
    exact lookupA_upd_self _ _ _

/-- Witness for `shutdown_pending_lost_amended`: shutting down `c9s`
with the timer `c9t` pending leaves the timer in place, reaps
`root/a.txt`, and the later fire performs no push but re-fetches and
re-writes the file. -/
theorem shutdown_pending_lost_amended_witness :
    (handleExit c9s).pendingUpdates = c9s.pendingUpdates ∧
    (handleExit c9s).calls = c9s.calls ∧
    lookupA (handleExit c9s).fs "root/a.txt" = none ∧
    patchCalls (fireTimerBody c9orc (handleExit c9s) c9t).calls = patchCalls c9s.calls ∧
    (fireTimerBody c9orc (handleExit c9s) c9t).calls = c9s.calls ++ [ApiCall.get 1] ∧
    lookupA (fireTimerBody c9orc (handleExit c9s) c9t).fs "root/a.txt" = some "fresh" :=
  shutdown_pending_lost_amended c9orc c9s c9t c9rec c9fresh rfl rfl rfl rfl

/-- C9 — counterexample to the claim as stated.  After shutdown of
`c9s`, the workspace file `root/a.txt` is gone — yet firing the still
pending timer `c9t` issues a `GET` and re-creates `root/a.txt` with the
freshly fetched content: a local file write caused by a timer that was
pending at shutdown, *after* the workspace was reaped, which the claim
rules out. -/
theorem shutdown_pending_lost_cex :
    (handleExit c9s).pendingUpdates = [c9t] ∧
    lookupA (handleExit c9s).fs "root/a.txt" = none ∧
    (fireTimerBody c9orc (handleExit c9s) c9t).calls = [ApiCall.get 1] ∧
    lookupA (fireTimerBody c9orc (handleExit c9s) c9t).fs "root/a.txt" = some "fresh" := by
  refine ⟨by decide, by decide, by decide, by decide⟩

/-- C10 — corrected.  The environment name is
`(tokenParts[2] || options.env || "production").toLowerCase()`
(src/index.js:75-77): the token's third dash-separated segment wins and
`--env` is ignored *provided that segment is nonempty*; an empty third
segment (e.g. a token ending in `-`) is falsy in JavaScript and falls
through to `--env`, and `"production"` is used when both are absent.
The original "at least three segments ⇒ third segment used, `--env`
ignored" fails on an empty third segment, see `env_selection_cex`. -/
theorem env_selection_amended (token e : String) :
    ((splitDash (trimJs token)).getD 2 "" ≠ "" →
       initEnv token e = lowerJs ((splitDash (trimJs token)).getD 2 "")) ∧
    ((splitDash (trimJs token)).getD 2 "" = "" → e ≠ "" →
       initEnv token e = lowerJs e) ∧
    ((splitDash (trimJs token)).getD 2 "" = "" → e = "" →
       initEnv token e = "production") := by
  refine ⟨?_, ?_, ?_⟩
  · intro h
    rw [List.getD_eq_getElem?_getD] at h
    simp [initEnv, List.getD_eq_getElem?_getD, h]
  · intro h he
    rw [List.getD_eq_getElem?_getD] at h
    simp [initEnv, List.getD_eq_getElem?_getD, h, he]
  · intro h he
    rw [List.getD_eq_getElem?_getD] at h
    simp [initEnv, List.getD_eq_getElem?_getD, h, he]
    decide

/-- Witness for `env_selection_amended`: a token whose third segment is
`Development` selects environment `development`, ignoring the `--env`
value `localhost`. -/
theorem env_selection_amended_witness :
    (splitDash (trimJs "ab12-site-Development-x")).getD 2 "" ≠ "" ∧
    initEnv "ab12-site-Development-x" "localhost"
      = lowerJs ((splitDash (trimJs "ab12-site-Development-x")).getD 2 "") :=
  ⟨by decide, (env_selection_amended "ab12-site-Development-x" "localhost").1 (by decide)⟩

/-- C10 — counterexample to the claim as stated.  The token `"a-b-"`
has three dash-separated segments, so the claim says the environment is
the third segment lowercased (`""`) and `--env` is ignored; but the
empty third segment is falsy, so the code uses the `--env` value
`development`. -/
theorem env_selection_cex :
    (splitDash (trimJs "a-b-")).length = 3 ∧
    (splitDash (trimJs "a-b-")).getD 2 "" = "" ∧
    initEnv "a-b-" "development" = "development" := by
  refine ⟨by decide, by decide, by decide⟩

end CmsCli
